import Mathlib

/-!
Verification development for the tokyorecordclub recommendation core.

The definitions below are a shallow embedding, in Lean, of the TypeScript
source of the repository: `functions/generate-playlists.ts`,
`functions/math-utils.ts`, the Spotify client (`getAudioFeatures`,
`getArtists`, `getRecommendations` wrappers) and the build-world function
(`parseIntersectionBias`, the HTTP handler).  JavaScript numbers are
modelled by `ℚ`; `Math.sqrt` (an opaque runtime primitive) is passed as a
function parameter where the source calls it; external HTTP calls are
passed as oracle functions, and functions that issue them also return the
list of requests they made, so that "no external call" properties are
statable.  JavaScript exceptions are modelled with `Except`.
-/

deriving instance DecidableEq for Except

namespace TRC

/-- Spotify audio-feature record (the nine numeric fields the core reads). -/
structure AudioFeatures where
  danceability : ℚ
  energy : ℚ
  speechiness : ℚ
  acousticness : ℚ
  instrumentalness : ℚ
  liveness : ℚ
  valence : ℚ
  tempo : ℚ
  loudness : ℚ
deriving DecidableEq, Repr

/-- An artist reference as carried on a track object. -/
structure ArtistRef where
  id : String
  name : String
deriving DecidableEq, Repr

/-- An album reference as carried on a track object. -/
structure AlbumRef where
  id : String
deriving DecidableEq, Repr

/-- A raw Spotify track as returned by the catalog. -/
structure Track where
  id : String
  name : String
  artists : List ArtistRef
  album : AlbumRef
  uri : String
deriving DecidableEq, Repr

/-- `Partial<SpotifyAudioFeatures>`: every field optional.  Used for
intersection bias maps and for `computeAverageFeatures`. -/
structure PartialAudioFeatures where
  danceability : Option ℚ := none
  energy : Option ℚ := none
  speechiness : Option ℚ := none
  acousticness : Option ℚ := none
  instrumentalness : Option ℚ := none
  liveness : Option ℚ := none
  valence : Option ℚ := none
  tempo : Option ℚ := none
  loudness : Option ℚ := none
deriving DecidableEq, Repr

/-- A named intersection of the world, with its numeric bias map. -/
structure Intersection where
  name : String
  description : String
  bias : PartialAudioFeatures
deriving DecidableEq, Repr

/-- Per-feature `[min, max]` ranges of the world (from `computeFeatureRanges`). -/
structure FeatureRanges where
  valence : ℚ × ℚ
  energy : ℚ × ℚ
  acousticness : ℚ × ℚ
  tempo : ℚ × ℚ
  instrumentalness : ℚ × ℚ
  danceability : ℚ × ℚ
deriving DecidableEq, Repr

/-- The slice of `WorldDefinition` that the generation pipeline reads. -/
structure WorldDefinition where
  name : String
  seedTrackIds : List String
  tasteCentroid : List ℚ
  semanticCentroid : List ℚ
  topArtists : List String
  featureRanges : Option FeatureRanges
  intersections : List Intersection
deriving DecidableEq, Repr

/-- A fully enriched and scored candidate (the `CandidateTrack` interface of
`generate-playlists.ts` after `scoreWithEmbeddings`). -/
structure CandidateTrack where
  id : String
  name : String
  artists : List ArtistRef
  album : AlbumRef
  uri : String
  audioFeatures : AudioFeatures
  genres : List String
  score : ℚ
  semanticScore : ℚ
  spotifyScore : ℚ
  noveltyBonus : ℚ
  diversityBonus : ℚ
deriving DecidableEq, Repr

/-- A candidate together with the per-intersection `biasedScore` that
`bucketIntoIntersections` attaches before sorting. -/
structure BiasedTrack where
  cand : CandidateTrack
  biasedScore : ℚ
deriving DecidableEq, Repr

/-- One generated playlist (name, description and selected tracks). -/
structure Playlist where
  name : String
  description : String
  tracks : List BiasedTrack
deriving DecidableEq, Repr

/-- `audioFeaturesToVector` from `math-utils.ts`: the fixed 9-dimensional
layout, with tempo divided by 200 and loudness divided by −60. -/
def audioFeaturesToVector (f : AudioFeatures) : List ℚ :=
  [f.danceability, f.energy, f.speechiness, f.acousticness,
   f.instrumentalness, f.liveness, f.valence, f.tempo / 200,
   f.loudness / (-60)]

/-- `computeCentroid` from `math-utils.ts`: element-wise mean, `[]` on empty
input; dimensionality is taken from the first vector. -/
def computeCentroid (vectors : List (List ℚ)) : List ℚ :=
  match vectors with
  | [] => []
  | v0 :: _ =>
    (List.range v0.length).map (fun i =>
      ((vectors.map (fun v => v.getD i 0)).sum) / (vectors.length : ℚ))

/-- JavaScript `x || d` on an optional number: `undefined` and `0` are falsy. -/
def jsOrQ (x : Option ℚ) (d : ℚ) : ℚ :=
  match x with
  | some v => if v = 0 then d else v
  | none => d

/-- `track.genres[0] || 'unknown'`: the first genre, except that a missing
first genre and the empty string (both falsy) fall back to "unknown". -/
def jsPrimaryGenre (genres : List String) : String :=
  match genres with
  | [] => "unknown"
  | g :: _ => if g = "" then "unknown" else g

/-- `genreCounts.get(g) || 0` on an association-list map. -/
def lookupCount (gc : List (String × ℕ)) (g : String) : ℕ :=
  (gc.lookup g).getD 0

/-- `genreCounts.set(g, count + 1)`: prepend, so that `lookup` sees the
newest binding first. -/
def bumpCount (gc : List (String × ℕ)) (g : String) : List (String × ℕ) :=
  (g, lookupCount gc g + 1) :: gc

/-- The loop body of `enforceDiversity`, with the running "used artists",
"used albums" and per-primary-genre counters made explicit.  The JS loop
pushes a track and then breaks once 50 tracks are selected. -/
def enforceDiversityGo : List BiasedTrack → List String → List String →
    List (String × ℕ) → ℕ → List BiasedTrack
  | [], _, _, _, _ => []
  | t :: rest, usedArtists, usedAlbums, genreCounts, selectedCount =>
    let artistIds := t.cand.artists.map (fun a => a.id)
    if artistIds.any (fun i => usedArtists.contains i) then
      enforceDiversityGo rest usedArtists usedAlbums genreCounts selectedCount
    else if usedAlbums.contains t.cand.album.id then
      enforceDiversityGo rest usedArtists usedAlbums genreCounts selectedCount
    else
      let primaryGenre := jsPrimaryGenre t.cand.genres
      if 8 ≤ lookupCount genreCounts primaryGenre then
        enforceDiversityGo rest usedArtists usedAlbums genreCounts selectedCount
      else if 50 ≤ selectedCount + 1 then [t]
      else
        t :: enforceDiversityGo rest (artistIds ++ usedArtists)
          (t.cand.album.id :: usedAlbums)
          (bumpCount genreCounts primaryGenre) (selectedCount + 1)

/-- `enforceDiversity` from `generate-playlists.ts`. -/
def enforceDiversity (tracks : List BiasedTrack) : List BiasedTrack :=
  enforceDiversityGo tracks [] [] [] 0

/-- The per-track bias pass inside `bucketIntoIntersections`: valence and
energy biases add `(1 − |Δ|)·0.1`; the tempo bias divides `|Δ|` by 100 and
clamps the shape at 0.  No other bias-map entry is read. -/
def applyIntersectionBias (intersection : Intersection)
    (t : CandidateTrack) : BiasedTrack :=
  let s0 := t.score
  let s1 := match intersection.bias.valence with
    | some b => s0 + (1 - |t.audioFeatures.valence - b|) * (1 / 10)
    | none => s0
  let s2 := match intersection.bias.energy with
    | some b => s1 + (1 - |t.audioFeatures.energy - b|) * (1 / 10)
    | none => s1
  let s3 := match intersection.bias.tempo with
    | some b => s2 + (max 0 (1 - |t.audioFeatures.tempo - b| / 100)) * (1 / 10)
    | none => s2
  ⟨t, s3⟩

/-- `biasedTracks.sort((a, b) => b.biasedScore - a.biasedScore)`: a stable
descending sort on `biasedScore`. -/
def sortByBiasedScoreDesc (l : List BiasedTrack) : List BiasedTrack :=
  l.mergeSort (fun a b => decide (b.biasedScore ≤ a.biasedScore))

/-- `bucketIntoIntersections` from `generate-playlists.ts`: one playlist per
intersection; bias, sort, window of 80, diversity pass, keep 50. -/
def bucketIntoIntersections (tracks : List CandidateTrack)
    (world : WorldDefinition) : List Playlist :=
  world.intersections.map (fun intersection =>
    let biasedTracks := tracks.map (applyIntersectionBias intersection)
    let sorted := sortByBiasedScoreDesc biasedTracks
    let diverse := enforceDiversity (sorted.take 80)
    let selected := diverse.take 50
    ⟨intersection.name, intersection.description, selected⟩)

/-- The batch genre-frequency map of `applyBonuses`: how often a genre
occurs across all candidates' genre lists. -/
def batchGenreCount (tracks : List CandidateTrack) (g : String) : ℕ :=
  ((tracks.map (fun t => t.genres)).flatten).count g

/-- `applyBonuses` from `generate-playlists.ts`: novelty and diversity
bonuses plus the fixed 0.4/0.3/0.2/0.1 weighted final score. -/
def applyBonuses (tracks : List CandidateTrack)
    (world : WorldDefinition) : List CandidateTrack :=
  tracks.map (fun track =>
    let isNewArtist := !(track.artists.any (fun a => world.topArtists.contains a.id))
    let noveltyBonus : ℚ := if isNewArtist then 15 / 100 else 0
    let avgGenreCount : ℚ :=
      if 0 < track.genres.length then
        ((track.genres.map (fun g => (batchGenreCount tracks g : ℚ))).sum) /
          (track.genres.length : ℚ)
      else 1000
    let diversityBonus : ℚ :=
      if avgGenreCount < 10 then 1 / 10
      else if avgGenreCount < 30 then 5 / 100 else 0
    let score := (4 / 10) * track.semanticScore + (3 / 10) * track.spotifyScore +
      (2 / 10) * noveltyBonus + (1 / 10) * diversityBonus
    { track with
        noveltyBonus := noveltyBonus
        diversityBonus := diversityBonus
        score := score })

/-- Errors that the embedded pipeline can surface.  `noSeedTracks` exists in
the error vocabulary so that claims about it are statable; `typeError`
models a JavaScript TypeError (property access on `undefined`);
`lengthMismatch` models the thrown "Vectors must have same length". -/
inductive PipeError where
  | noSeedTracks
  | typeError
  | lengthMismatch
deriving DecidableEq, Repr

/-- The recommendation-request parameters that `harvestCandidates` sets. -/
structure RecParams where
  seed_tracks : List String
  limit : Option ℕ := none
  target_acousticness : Option ℚ := none
  target_valence : Option ℚ := none
  target_energy : Option ℚ := none
  target_tempo : Option ℚ := none
  target_instrumentalness : Option ℚ := none
  target_danceability : Option ℚ := none
deriving DecidableEq, Repr

/-- JavaScript `Array.prototype.slice(a, b)`. -/
def jsSlice (l : List String) (a b : ℕ) : List String :=
  (l.drop a).take (b - a)

/-- `addUnique` from `generate-playlists.ts`: append tracks whose id has not
been seen, threading the seen-id set. -/
def addUnique (candidates : List Track) (newTracks : List Track)
    (seenIds : List String) : List Track × List String :=
  match newTracks with
  | [] => (candidates, seenIds)
  | t :: rest =>
    if seenIds.contains t.id then addUnique candidates rest seenIds
    else addUnique (candidates ++ [t]) rest (t.id :: seenIds)

/-- `computeAverageFeatures` from `generate-playlists.ts`: reads the taste
centroid positionally into named feature fields (an out-of-range index is
`undefined`, i.e. `none`). -/
def computeAverageFeatures (world : WorldDefinition) : PartialAudioFeatures :=
  let centroid := world.tasteCentroid
  { acousticness := centroid.get? 0
    danceability := centroid.get? 1
    energy := centroid.get? 2
    instrumentalness := centroid.get? 3
    liveness := centroid.get? 4
    loudness := centroid.get? 5
    speechiness := centroid.get? 6
    valence := centroid.get? 7
    tempo := centroid.get? 8 }

/-- `harvestCandidates` from `generate-playlists.ts`, instrumented: besides
the result it returns the list of recommendation requests it issued, in
order, so that "no external call" properties are statable.  With no seed
tracks the source logs a warning and returns the empty list. -/
def harvestCandidates (world : WorldDefinition) (rec : RecParams → List Track) :
    List RecParams × Except PipeError (List Track) :=
  if world.seedTrackIds.isEmpty then ([], .ok [])
  else
    let limitedSeeds := world.seedTrackIds.take 50
    let avgFeatures := computeAverageFeatures world
    let p1 : RecParams := { seed_tracks := jsSlice limitedSeeds 0 5, limit := some 100 }
    let r1 := addUnique [] (rec p1) []
    let p2 : RecParams :=
      { seed_tracks := jsSlice limitedSeeds 5 10,
        limit := some 100,
        target_acousticness := some (jsOrQ avgFeatures.acousticness (1 / 2)),
        target_valence := some (jsOrQ avgFeatures.valence (1 / 2)),
        target_energy := some (jsOrQ avgFeatures.energy (1 / 2)) }
    let r2 := addUnique r1.1 (rec p2) r1.2
    let p3 : RecParams :=
      { seed_tracks := jsSlice limitedSeeds 10 15,
        limit := some 100,
        target_tempo := some (jsOrQ avgFeatures.tempo 120),
        target_instrumentalness := some (jsOrQ avgFeatures.instrumentalness (1 / 10)) }
    let r3 := addUnique r2.1 (rec p3) r2.2
    let p4 : RecParams :=
      { seed_tracks := jsSlice limitedSeeds 15 20,
        limit := some 100,
        target_valence := some (max 0 (jsOrQ avgFeatures.valence (1 / 2) - 2 / 10)),
        target_energy := some (max 0 (jsOrQ avgFeatures.energy (1 / 2) - 1 / 10)) }
    let r4 := addUnique r3.1 (rec p4) r3.2
    let p5 : RecParams :=
      { seed_tracks := jsSlice limitedSeeds 20 25,
        limit := some 100,
        target_acousticness := some (min 1 (jsOrQ avgFeatures.acousticness (1 / 2) + 2 / 10)) }
    let r5 := addUnique r4.1 (rec p5) r4.2
    if 30 < limitedSeeds.length then
      let p6 : RecParams :=
        { seed_tracks := jsSlice limitedSeeds 25 30,
          limit := some 100,
          target_danceability := some (jsOrQ avgFeatures.danceability (1 / 2)) }
      let r6 := addUnique r5.1 (rec p6) r5.2
      ([p1, p2, p3, p4, p5, p6], .ok r6.1)
    else
      ([p1, p2, p3, p4, p5], .ok r5.1)

/-- `filterBlocklist` from `generate-playlists.ts`: drop candidates whose id
is among the world's seed-track ids. -/
def filterBlocklist (candidates : List Track) (world : WorldDefinition) :
    List Track :=
  candidates.filter (fun t => !(world.seedTrackIds.contains t.id))

/-- The batching loop `for (let i = 0; i < ids.length; i += n)`: successive
slices of size `n`, written with structural recursion on a length fuel. -/
def jsChunksGo (n : ℕ) : ℕ → List String → List (List String)
  | 0, _ => []
  | _, [] => []
  | fuel + 1, l => l.take n :: jsChunksGo n fuel (l.drop n)

/-- See `jsChunksGo`. -/
def jsChunks (n : ℕ) (l : List String) : List (List String) :=
  jsChunksGo n l.length l

/-- `getAudioFeatures` from the Spotify client: batches of 100; each batch
response may contain `null` records, which `filter(Boolean)` drops, so the
result can be shorter than the input.  The oracle gives each batch's
`audio_features` array. -/
def getAudioFeatures (trackIds : List String)
    (oracle : List String → List (Option AudioFeatures)) : List AudioFeatures :=
  ((jsChunks 100 trackIds).map (fun batch => (oracle batch).filterMap id)).flatten

/-- An artist record as returned by the Spotify `getArtists` batch call. -/
structure SpotifyArtist where
  id : String
  genres : List String
deriving DecidableEq, Repr

/-- `getArtists` from the Spotify client: batches of 50, concatenated. -/
def getArtists (artistIds : List String)
    (oracle : List String → List SpotifyArtist) : List SpotifyArtist :=
  ((jsChunks 50 artistIds).map oracle).flatten

/-- A track paired with what `enrichWithAudioFeatures` attached to it: the
positional entry of the (possibly shortened) features array, `none` when
the index was out of range (`undefined` in JS). -/
structure EnrichedTrack where
  track : Track
  audioFeatures : Option AudioFeatures
deriving DecidableEq, Repr

/-- `enrichWithAudioFeatures` from `generate-playlists.ts`: pairs tracks
with the features array positionally (`features[i]`). -/
def enrichWithAudioFeatures (tracks : List Track)
    (oracle : List String → List (Option AudioFeatures)) : List EnrichedTrack :=
  let features := getAudioFeatures (tracks.map (fun t => t.id)) oracle
  tracks.mapIdx (fun i t => ⟨t, features.get? i⟩)

/-- `applyCoarseFilters` from `generate-playlists.ts`.  Reading a feature
field of an `undefined` record throws in JS, hence the `Except`. -/
def applyCoarseFiltersGo (ranges : FeatureRanges) :
    List EnrichedTrack → Except PipeError (List EnrichedTrack)
  | [] => .ok []
  | t :: rest =>
    match t.audioFeatures with
    | none => .error .typeError
    | some f => do
      let keep :=
        ranges.valence.1 - 2 / 10 ≤ f.valence ∧
        f.valence ≤ ranges.valence.2 + 2 / 10 ∧
        ranges.energy.1 - 2 / 10 ≤ f.energy ∧
        f.energy ≤ ranges.energy.2 + 2 / 10 ∧
        ranges.tempo.1 - 20 ≤ f.tempo ∧
        f.tempo ≤ ranges.tempo.2 + 20 ∧
        ranges.acousticness.1 - 2 / 10 ≤ f.acousticness
      let tail ← applyCoarseFiltersGo ranges rest
      pure (if keep then t :: tail else tail)

/-- `applyCoarseFilters`: skipped entirely when the world has no ranges. -/
def applyCoarseFilters (tracks : List EnrichedTrack) (world : WorldDefinition) :
    Except PipeError (List EnrichedTrack) :=
  match world.featureRanges with
  | none => .ok tracks
  | some ranges => applyCoarseFiltersGo ranges tracks

/-- JavaScript `[...new Set(l)]`: deduplicate keeping first occurrences. -/
def jsDedupGo (seen : List String) : List String → List String
  | [] => []
  | a :: rest =>
    if seen.contains a then jsDedupGo seen rest
    else a :: jsDedupGo (a :: seen) rest

/-- See `jsDedupGo`. -/
def jsDedup (l : List String) : List String := jsDedupGo [] l

/-- Lookup in a JS `Map` built from an entry list: the last binding for a
key wins. -/
def jsMapGet (entries : List (String × List String)) (k : String) :
    Option (List String) :=
  entries.reverse.lookup k

/-- A track after `enrichWithGenres`: genres resolved, scores not yet set. -/
structure GenredTrack where
  track : Track
  audioFeatures : Option AudioFeatures
  genres : List String
deriving DecidableEq, Repr

/-- `enrichWithGenres` from `generate-playlists.ts`: union of the artists'
genre lists, deduplicated. -/
def enrichWithGenres (tracks : List EnrichedTrack)
    (oracle : List String → List SpotifyArtist) : List GenredTrack :=
  let artistIds := jsDedup
    ((tracks.map (fun t => t.track.artists.map (fun a => a.id))).flatten)
  let artists := getArtists artistIds oracle
  let artistGenres := artists.map (fun a => (a.id, a.genres))
  tracks.map (fun t =>
    let genres :=
      (t.track.artists.map (fun a => (jsMapGet artistGenres a.id).getD [])).flatten
    ⟨t.track, t.audioFeatures, jsDedup genres⟩)

/-- `inferStyle` from `math-utils.ts`: the fixed rule cascade, joined with
", ". -/
def inferStyle (f : AudioFeatures) : String :=
  let styles : List String :=
    (if 7 / 10 < f.energy ∧ 6 / 10 < f.valence then ["upbeat"]
     else if f.energy < 4 / 10 ∧ f.valence < 4 / 10 then ["melancholic"]
     else if 6 / 10 < f.energy ∧ f.valence < 4 / 10 then ["intense"]
     else if f.energy < 5 / 10 ∧ 5 / 10 < f.valence then ["calm-warm"]
     else []) ++
    (if 7 / 10 < f.acousticness then ["acoustic"]
     else if f.acousticness < 3 / 10 then ["electronic"]
     else []) ++
    (if 5 / 10 < f.instrumentalness then ["instrumental"] else []) ++
    (if f.tempo < 80 then ["slow"]
     else if 140 < f.tempo then ["fast"]
     else ["mid-tempo"]) ++
    (if 7 / 10 < f.danceability then ["groovy"] else [])
  String.intercalate ", " styles

/-- `cosineSimilarity` from `math-utils.ts`, with `Math.sqrt` passed in.
Throws on a length mismatch; returns 0 when either magnitude is 0. -/
def cosineSimilarity (sqrt : ℚ → ℚ) (a b : List ℚ) : Except PipeError ℚ :=
  if a.length ≠ b.length then .error .lengthMismatch
  else
    let dotProduct := ((a.zip b).map (fun p => p.1 * p.2)).sum
    let magnitudeA := sqrt ((a.map (fun x => x * x)).sum)
    let magnitudeB := sqrt ((b.map (fun x => x * x)).sum)
    if magnitudeA = 0 ∨ magnitudeB = 0 then .ok 0
    else .ok (dotProduct / (magnitudeA * magnitudeB))

/-- `euclideanDistance` from `math-utils.ts`, with `Math.sqrt` passed in. -/
def euclideanDistance (sqrt : ℚ → ℚ) (a b : List ℚ) : Except PipeError ℚ :=
  if a.length ≠ b.length then .error .lengthMismatch
  else .ok (sqrt (((a.zip b).map (fun p => (p.1 - p.2) ^ 2)).sum))

/-- The description string `scoreWithEmbeddings` builds per track.  Reading
`track.artists[0].name` throws when the track has no artists, and
`inferStyle` reads fields of an `undefined` feature record. -/
def trackDescription (t : GenredTrack) : Except PipeError String :=
  match t.track.artists with
  | [] => .error .typeError
  | a0 :: _ =>
    match t.audioFeatures with
    | none => .error .typeError
    | some f =>
      .ok (a0.name ++ " - " ++ t.track.name ++ ". Genres: " ++
        String.intercalate ", " t.genres ++ ". Style: " ++ inferStyle f)

/-- `scoreWithEmbeddings` from `generate-playlists.ts`: builds all
descriptions, calls the embedding provider once (`embed`), then attaches
`semanticScore` (cosine to the semantic centroid) and `spotifyScore`
(1 − euclidean distance to the taste centroid). -/
def scoreWithEmbeddings (sqrt : ℚ → ℚ) (tracks : List GenredTrack)
    (world : WorldDefinition) (embed : List String → List (List ℚ)) :
    Except PipeError (List CandidateTrack) := do
  let descriptions ← tracks.mapM trackDescription
  let embeddings := embed descriptions
  tracks.enum.mapM (fun p => do
    let t := p.2
    match embeddings.get? p.1 with
    | none => .error PipeError.typeError
    | some emb => do
      let semanticScore ← cosineSimilarity sqrt emb world.semanticCentroid
      match t.audioFeatures with
      | none => .error PipeError.typeError
      | some f => do
        let d ← euclideanDistance sqrt (audioFeaturesToVector f) world.tasteCentroid
        pure { id := t.track.id, name := t.track.name, artists := t.track.artists,
               album := t.track.album, uri := t.track.uri, audioFeatures := f,
               genres := t.genres, score := 0, semanticScore := semanticScore,
               spotifyScore := 1 - d, noveltyBonus := 0, diversityBonus := 0 })

/-- Step 8 of the pipeline: sort candidates by final score, descending. -/
def sortByScoreDesc (l : List CandidateTrack) : List CandidateTrack :=
  l.mergeSort (fun a b => decide (b.score ≤ a.score))

/-- The final state of a generation job's record: `complete` with the
playlist count, or `failed` when the async workflow threw. -/
inductive JobOutcome where
  | complete (playlistCount : ℕ) (playlists : List Playlist)
  | failed (e : PipeError)
deriving DecidableEq, Repr

/-- `generatePlaylistsAsync` from `generate-playlists.ts` as a pure
function of the world and the external services.  `createSpotifyPlaylists`
only performs external writes and swallows per-playlist errors in a
`try`/`catch`, so it cannot change the outcome and is the identity here. -/
def generatePlaylistsAsync (world : WorldDefinition)
    (rec : RecParams → List Track)
    (featOracle : List String → List (Option AudioFeatures))
    (artistOracle : List String → List SpotifyArtist)
    (embed : List String → List (List ℚ)) (sqrt : ℚ → ℚ) : JobOutcome :=
  let run : Except PipeError (List Playlist) := do
    let candidates ← (harvestCandidates world rec).2
    let filtered := filterBlocklist candidates world
    let withFeatures := enrichWithAudioFeatures filtered featOracle
    let coarseFiltered ← applyCoarseFilters withFeatures world
    let enriched := enrichWithGenres coarseFiltered artistOracle
    let scored ← scoreWithEmbeddings sqrt enriched world embed
    let finalScored := applyBonuses scored world
    let sorted := sortByScoreDesc finalScored
    pure (bucketIntoIntersections sorted world)
  match run with
  | .ok playlists => .complete playlists.length playlists
  | .error e => .failed e

/-- JavaScript `String.prototype.toLowerCase`, written over the character
list so that it reduces definitionally. -/
def jsToLower (s : String) : String := ⟨s.data.map Char.toLower⟩

/-- JavaScript `String.prototype.includes`. -/
def jsIncludes (s sub : String) : Bool :=
  s.data.tails.any (fun t => sub.data.isPrefixOf t)

/-- `parseIntersectionBias` from the build-world function: keyword-substring
match on the lower-cased description; each matched rule stores
`baseline feature ± offset` into the bias map. -/
def parseIntersectionBias (description : String) (baseline : AudioFeatures) :
    PartialAudioFeatures :=
  let lower := jsToLower description
  let bias : PartialAudioFeatures := {}
  let bias :=
    if jsIncludes lower "darker" || jsIncludes lower "melanchol" then
      { bias with valence := some (baseline.valence - 15 / 100) }
    else if jsIncludes lower "brighter" || jsIncludes lower "uplifting" then
      { bias with valence := some (baseline.valence + 15 / 100) }
    else bias
  let bias :=
    if jsIncludes lower "slower" || jsIncludes lower "calm" then
      { bias with energy := some (baseline.energy - 15 / 100) }
    else if jsIncludes lower "energetic" || jsIncludes lower "driving" then
      { bias with energy := some (baseline.energy + 15 / 100) }
    else bias
  let bias :=
    if jsIncludes lower "slower" then
      { bias with tempo := some (baseline.tempo - 10) }
    else if jsIncludes lower "faster" then
      { bias with tempo := some (baseline.tempo + 10) }
    else bias
  let bias :=
    if jsIncludes lower "organic" || jsIncludes lower "acoustic" then
      { bias with acousticness := some (baseline.acousticness + 15 / 100) }
    else if jsIncludes lower "electronic" then
      { bias with acousticness := some (baseline.acousticness - 15 / 100) }
    else bias
  bias

/-- The request body of the build-world endpoint, after JSON parsing:
the seed-track id list and whether `onboardingAnswers` was present. -/
structure BuildRequestBody where
  seedTrackIds : List String
  hasOnboardingAnswers : Bool
deriving DecidableEq, Repr

/-- The build-world handler's HTTP response, plus whether it launched the
asynchronous `buildWorldAsync` workflow.  All catalog, embedding and LLM
calls of a build happen inside that workflow; the synchronous handler
itself performs none. -/
structure HandlerResponse where
  statusCode : ℕ
  error : Option String
  jobStarted : Bool
deriving DecidableEq, Repr

/-- The synchronous part of the build-world `handler`: method check, auth
check, then the `!seedTrackIds?.length || !onboardingAnswers` guard that
returns 400 before the async workflow is started.  A missing body parses
as `{}`, i.e. no seeds and no answers. -/
def buildWorldHandler (httpMethod : String) (authenticated : Bool)
    (body : Option BuildRequestBody) : HandlerResponse :=
  if httpMethod ≠ "POST" then ⟨405, none, false⟩
  else if !authenticated then ⟨401, some "Unauthorized", false⟩
  else
    let parsed := body.getD ⟨[], false⟩
    if parsed.seedTrackIds.isEmpty || !parsed.hasOnboardingAnswers then
      ⟨400, some "Missing seedTrackIds or onboardingAnswers", false⟩
    else ⟨202, none, true⟩

/-!  PCA (`math-utils.ts`).  Here the possibility of non-finite JavaScript
numbers matters: `JsNum` is `some q` for a finite number and `none` for a
non-finite one (`NaN` or `±Infinity`); every arithmetic operation
propagates non-finiteness, and dividing by zero produces a non-finite
value (`0/0` is `NaN`, `q/0` is `±Infinity`).  The inputs to `pca` are
finite, so the standardization step works in plain `ℚ`; non-finite values
can first arise at the covariance division by `matrix.rows − 1`.  The
eigendecomposition is the external `ml-matrix` library, so it is passed as
a function parameter. -/

/-- A JavaScript number: finite (`some q`) or non-finite (`none`). -/
abbrev JsNum := Option ℚ

/-- Addition on `JsNum`; non-finiteness propagates. -/
def jadd (a b : JsNum) : JsNum :=
  match a, b with
  | some x, some y => some (x + y)
  | _, _ => none

/-- Multiplication on `JsNum`; non-finiteness propagates. -/
def jmul (a b : JsNum) : JsNum :=
  match a, b with
  | some x, some y => some (x * y)
  | _, _ => none

/-- Division on `JsNum`: division by zero yields a non-finite value. -/
def jdiv (a b : JsNum) : JsNum :=
  match a, b with
  | some x, some y => if y = 0 then none else some (x / y)
  | _, _ => none

/-- `Array.prototype.reduce((s, v) => s + v, 0)` on `JsNum`s. -/
def jsum (l : List JsNum) : JsNum := l.foldl jadd (some 0)

/-- `mean` from `math-utils.ts` (inputs finite and non-empty at its uses). -/
def meanQ (values : List ℚ) : ℚ := values.sum / (values.length : ℚ)

/-- The population variance computed inside `std`. -/
def varianceQ (values : List ℚ) : ℚ :=
  ((values.map (fun v => (v - meanQ values) ^ 2)).sum) / (values.length : ℚ)

/-- `std` from `math-utils.ts`, with `Math.sqrt` passed in. -/
def stdQ (sqrt : ℚ → ℚ) (values : List ℚ) : ℚ := sqrt (varianceQ values)

/-- The `data` part of `standardize` from `math-utils.ts`: per-column
z-score, a column with zero std mapping to all-zero. -/
def standardizeData (sqrt : ℚ → ℚ) (matrix : List (List ℚ)) :
    List (List ℚ) :=
  let numFeatures := (matrix.headD []).length
  let means := (List.range numFeatures).map
    (fun i => meanQ (matrix.map (fun row => row.getD i 0)))
  let stds := (List.range numFeatures).map
    (fun i => stdQ sqrt (matrix.map (fun row => row.getD i 0)))
  matrix.map (fun row => row.mapIdx (fun i val =>
    if stds.getD i 0 = 0 then 0 else (val - means.getD i 0) / stds.getD i 0))

/-- The covariance matrix `transposed.mmul(matrix).div(matrix.rows - 1)`
that `pca` feeds to the eigendecomposition. -/
def covMatrix (x : List (List ℚ)) : List (List JsNum) :=
  let rows := x.length
  let d := (x.headD []).length
  (List.range d).map (fun i => (List.range d).map (fun j =>
    jdiv (some ((x.map (fun row => row.getD i 0 * row.getD j 0)).sum))
      (some ((rows : ℚ) - 1))))

/-- What `ml-matrix`'s `EigenvalueDecomposition` exposes to `pca`. -/
structure EvdResult where
  realEigenvalues : List JsNum
  eigenvectorMatrix : List (List JsNum)
deriving DecidableEq, Repr

/-- `eigenvectorMatrix.getColumn(idx)` (out of range is `undefined`). -/
def getColumn (m : List (List JsNum)) (idx : ℕ) : List JsNum :=
  m.map (fun row => row.getD idx none)

/-- The eigenvalue-index sort of `pca`.  The JS comparator
`(a, b) => b.val - a.val` has implementation-defined behavior when values
are `NaN`; this embedding fixes one order (non-finite values compare as
not-less).  Every property proved below is independent of the order and
uses only that the result is a permutation of all indices. -/
def sortEigenIndices (eigenvalues : List JsNum) : List ℕ :=
  ((eigenvalues.enum).mergeSort (fun a b =>
    match a.2, b.2 with
    | some x, some y => decide (y ≤ x)
    | _, _ => true)).map (fun p => p.1)

/-- The output record of `pca`. -/
structure PcaResult where
  components : List (List JsNum)
  transformedData : List (List JsNum)
  explainedVariance : List JsNum
deriving DecidableEq, Repr

/-- `pca` from `math-utils.ts`: standardize, covariance (divided by
`rows − 1`), eigendecomposition (`evd`, external), sort eigenpairs, take
the top `numComponents`, project, and normalize eigenvalues to explained
variances. -/
def pca (sqrt : ℚ → ℚ) (evd : List (List JsNum) → EvdResult)
    (data : List (List ℚ)) (numComponents : ℕ) : PcaResult :=
  let standardizedData := standardizeData sqrt data
  let covariance := covMatrix standardizedData
  let evdR := evd covariance
  let eigenvalues := evdR.realEigenvalues
  let indices := sortEigenIndices eigenvalues
  let topComponents := (List.range (min numComponents indices.length)).map
    (fun i => getColumn evdR.eigenvectorMatrix (indices.getD i 0))
  let transformed := standardizedData.map (fun row =>
    topComponents.map (fun comp =>
      jsum ((row.enum).map (fun p => jmul (some p.2) (comp.getD p.1 none)))))
  let totalVariance := jsum eigenvalues
  let explainedVariance := (indices.take numComponents).map (fun idx =>
    jdiv (eigenvalues.getD idx none) totalVariance)
  ⟨topComponents, transformed, explainedVariance⟩

/-!  Concrete fixtures used by counterexamples and witnesses. -/

/-- A baseline feature record with pairwise distinct values. -/
def exBaseline : AudioFeatures :=
  ⟨1/10, 2/10, 3/10, 4/10, 5/10, 6/10, 7/10, 100, -30⟩

/-- A recommendation oracle that returns no tracks. -/
def emptyRec : RecParams → List Track := fun _ => []

/-- A world with no seed tracks. -/
def emptySeedWorld : WorldDefinition := ⟨"w", [], [], [], [], none, []⟩

/-- Claim C4, counterexample: a bias description containing "darker" does
not yield the entry `valence = −0.15`; with a baseline valence of 0.7 the
stored entry is the absolute value 0.7 − 0.15 = 0.55. -/
theorem C4_counterexample :
    (parseIntersectionBias "darker" exBaseline).valence = some (11/20) ∧
    (parseIntersectionBias "darker" exBaseline).valence ≠ some (-(15/100)) := by
  constructor
  · simp +decide [parseIntersectionBias, exBaseline]
    norm_num
  · simp +decide [parseIntersectionBias, exBaseline]

/-- Claim C4, amended: the bias map stores absolute per-feature target
values, namely the world's average feature plus the keyword table's signed
offset — "darker"/"melancholic" store `baseline.valence − 0.15`,
"organic"/"acoustic" store `baseline.acousticness + 0.15`, "slower" stores
`baseline.energy − 0.15` and `baseline.tempo − 10`, "calm" stores
`baseline.energy − 0.15` but no tempo entry. -/
theorem C4_amended_thm (baseline : AudioFeatures) :
    (parseIntersectionBias "darker" baseline).valence
        = some (baseline.valence - 15/100) ∧
    (parseIntersectionBias "melancholic" baseline).valence
        = some (baseline.valence - 15/100) ∧
    (parseIntersectionBias "organic" baseline).acousticness
        = some (baseline.acousticness + 15/100) ∧
    (parseIntersectionBias "acoustic" baseline).acousticness
        = some (baseline.acousticness + 15/100) ∧
    (parseIntersectionBias "slower" baseline).energy
        = some (baseline.energy - 15/100) ∧
    (parseIntersectionBias "slower" baseline).tempo
        = some (baseline.tempo - 10) ∧
    (parseIntersectionBias "calm" baseline).energy
        = some (baseline.energy - 15/100) ∧
    (parseIntersectionBias "calm" baseline).tempo = none := by
  refine ⟨?_, ?_, ?_, ?_, ?_, ?_, ?_, ?_⟩ <;> simp +decide [parseIntersectionBias]

/-- Claim C5, counterexample: with an empty `seedTrackIds` the harvester
returns a normal empty result (and issues no recommendation request); it
does not fail with `NoSeedTracks`. -/
theorem C5_counterexample :
    harvestCandidates emptySeedWorld emptyRec = ([], .ok []) ∧
    (harvestCandidates emptySeedWorld emptyRec).2 ≠ .error .noSeedTracks := by
  constructor <;> decide

/-- Claim C5, amended: whenever `world.seedTrackIds` is empty the harvester
short-circuits, issuing no recommendation request and returning a normal
empty candidate list rather than an error. -/
theorem C5_amended_thm (world : WorldDefinition) (rec : RecParams → List Track)
    (h : world.seedTrackIds = []) :
    harvestCandidates world rec = ([], .ok []) := by
  unfold harvestCandidates
  rw [h]
  rfl

/-- Witness for `C5_amended_thm` at a concrete world. -/
theorem C5_amended_witness :
    harvestCandidates emptySeedWorld emptyRec = ([], .ok []) :=
  C5_amended_thm emptySeedWorld emptyRec rfl

/-- Claim C6, counterexample: a build request with zero seed tracks is
rejected with HTTP 400 and the error string "Missing seedTrackIds or
onboardingAnswers", not with an `InsufficientSeedData` error. -/
theorem C6_counterexample :
    buildWorldHandler "POST" true (some ⟨[], true⟩)
      = ⟨400, some "Missing seedTrackIds or onboardingAnswers", false⟩ ∧
    (buildWorldHandler "POST" true (some ⟨[], true⟩)).error
      ≠ some "InsufficientSeedData" := by
  constructor <;> decide

/-- Claim C6, amended: a build invoked with zero seed tracks fails with an
HTTP 400 "Missing seedTrackIds or onboardingAnswers" response, and the
failure occurs before the asynchronous workflow — the only part that
issues catalog, embedding or LLM calls — is started. -/
theorem C6_amended_thm (body : BuildRequestBody)
    (h : body.seedTrackIds = []) :
    buildWorldHandler "POST" true (some body)
      = ⟨400, some "Missing seedTrackIds or onboardingAnswers", false⟩ := by
  simp +decide [buildWorldHandler, h]

/-- Witness for `C6_amended_thm` at a concrete request body. -/
theorem C6_amended_witness :
    buildWorldHandler "POST" true (some ⟨[], true⟩)
      = ⟨400, some "Missing seedTrackIds or onboardingAnswers", false⟩ :=
  C6_amended_thm ⟨[], true⟩ rfl

/-- One additive term of the specification's biased-score formula:
`(1 − |candidateFeature − bias[feature]|) × 0.1` when the feature is
present in the bias map, 0 otherwise. -/
def specBiasTerm (b : Option ℚ) (candidateFeature : ℚ) : ℚ :=
  match b with
  | some v => (1 - |candidateFeature - v|) * (1 / 10)
  | none => 0

/-- The specification's tempo term: distance `|Δtempo|/100` before the same
`(1 − x)×0.1` shape, clamped at 0 when negative. -/
def specTempoBiasTerm (b : Option ℚ) (candidateTempo : ℚ) : ℚ :=
  match b with
  | some v => (max 0 (1 - |candidateTempo - v| / 100)) * (1 / 10)
  | none => 0

/-- The biased score as the specification's sentence states it: the base
score plus one term for EVERY feature present in the intersection's bias
map. -/
def specBiasedScore (intersection : Intersection) (t : CandidateTrack) : ℚ :=
  t.score
    + specBiasTerm intersection.bias.danceability t.audioFeatures.danceability
    + specBiasTerm intersection.bias.energy t.audioFeatures.energy
    + specBiasTerm intersection.bias.speechiness t.audioFeatures.speechiness
    + specBiasTerm intersection.bias.acousticness t.audioFeatures.acousticness
    + specBiasTerm intersection.bias.instrumentalness t.audioFeatures.instrumentalness
    + specBiasTerm intersection.bias.liveness t.audioFeatures.liveness
    + specBiasTerm intersection.bias.valence t.audioFeatures.valence
    + specTempoBiasTerm intersection.bias.tempo t.audioFeatures.tempo
    + specBiasTerm intersection.bias.loudness t.audioFeatures.loudness

/-- An intersection whose bias map, produced by the world builder from an
"organic" description, contains only an acousticness entry (0.4 + 0.15). -/
def exOrganicIntersection : Intersection :=
  ⟨"Organic Corner", "organic", parseIntersectionBias "organic" exBaseline⟩

/-- A scored candidate with base score 0 and the fixture features. -/
def exCand : CandidateTrack :=
  ⟨"c1", "song", [⟨"ar1", "n1"⟩], ⟨"al1"⟩, "uri", exBaseline,
   ["ambient"], 0, 0, 0, 0, 0⟩

/-- Claim C3, counterexample: for an intersection whose bias map contains
an acousticness entry, the bucketer leaves the score unchanged while the
specification's formula adds `(1 − |0.4 − 0.55|)·0.1 = 0.085`; so a
feature present in the bias map IS omitted from the sum. -/
theorem C3_counterexample :
    (applyIntersectionBias exOrganicIntersection exCand).biasedScore = 0 ∧
    specBiasedScore exOrganicIntersection exCand = 17 / 200 ∧
    (applyIntersectionBias exOrganicIntersection exCand).biasedScore
      ≠ specBiasedScore exOrganicIntersection exCand := by
  have hbias : exOrganicIntersection.bias = { acousticness := some (11/20) } := by
    simp +decide [exOrganicIntersection, parseIntersectionBias, exBaseline]
    norm_num
  refine ⟨?_, ?_, ?_⟩
  · simp [applyIntersectionBias, hbias, exCand]
  · simp [specBiasedScore, specBiasTerm, specTempoBiasTerm, hbias, exCand, exBaseline]
    norm_num [abs]
  · simp [applyIntersectionBias, specBiasedScore, specBiasTerm, specTempoBiasTerm,
      hbias, exCand, exBaseline]
    norm_num [abs]

/-- Claim C3, amended: the bucketer computes `biasedScore` as the base
score plus the specification's terms for the valence, energy and tempo
entries of the bias map only; any other entry (in particular an
acousticness entry) is ignored. -/
theorem C3_amended_thm (intersection : Intersection) (t : CandidateTrack) :
    (applyIntersectionBias intersection t).biasedScore =
      t.score
        + specBiasTerm intersection.bias.valence t.audioFeatures.valence
        + specBiasTerm intersection.bias.energy t.audioFeatures.energy
        + specTempoBiasTerm intersection.bias.tempo t.audioFeatures.tempo := by
  rcases hv : intersection.bias.valence with _ | bv <;>
  rcases he : intersection.bias.energy with _ | be <;>
  rcases ht : intersection.bias.tempo with _ | bt <;>
    simp [applyIntersectionBias, specBiasTerm, specTempoBiasTerm, hv, he, ht]

/-- The enrichment behavior the specification describes: each candidate is
paired with its own feature record (matching the upstream batch response
positionally, before any filtering), and a candidate whose record is
missing is excluded from the set. -/
def specEnrichWithAudioFeatures (tracks : List Track)
    (oracle : List String → List (Option AudioFeatures)) : List EnrichedTrack :=
  let raw := ((jsChunks 100 (tracks.map (fun t => t.id))).map oracle).flatten
  (tracks.zip raw).filterMap (fun p =>
    match p.2 with
    | some f => some ⟨p.1, some f⟩
    | none => none)

/-- A concrete track "A" by artist ar1. -/
def exTrackA : Track := ⟨"A", "a", [⟨"ar1", "n1"⟩], ⟨"al1"⟩, "uA"⟩

/-- A concrete track "B" by artist ar2. -/
def exTrackB : Track := ⟨"B", "b", [⟨"ar2", "n2"⟩], ⟨"al2"⟩, "uB"⟩

/-- A feature oracle whose batch response has no record (null) for the
first requested track and a record for the second. -/
def exFeatOracle : List String → List (Option AudioFeatures) :=
  fun _ => [none, some exBaseline]

/-- Claim C7: when the upstream batch has no feature record for track A,
`filter(Boolean)` shortens the array and the positional pairing misaligns:
the code keeps A paired with B's feature record and leaves B paired with
`undefined`, whereas the specified behavior excludes A alone and keeps B
with its own record. -/
theorem C7_bug_thm :
    enrichWithAudioFeatures [exTrackA, exTrackB] exFeatOracle
      = [⟨exTrackA, some exBaseline⟩, ⟨exTrackB, none⟩] ∧
    specEnrichWithAudioFeatures [exTrackA, exTrackB] exFeatOracle
      = [⟨exTrackB, some exBaseline⟩] ∧
    enrichWithAudioFeatures [exTrackA, exTrackB] exFeatOracle
      ≠ specEnrichWithAudioFeatures [exTrackA, exTrackB] exFeatOracle := by
  refine ⟨rfl, rfl, ?_⟩
  intro h
  have h2 : ([⟨exTrackA, some exBaseline⟩, ⟨exTrackB, none⟩] : List EnrichedTrack)
      = [⟨exTrackB, some exBaseline⟩] := h
  have h3 := congrArg List.length h2
  simp at h3

/-- A world whose taste centroid is the `audioFeaturesToVector` layout of
`exBaseline` — exactly the centroid `buildWorldAsync` computes for a
single seed track with those features. -/
def exWorld8 : WorldDefinition :=
  ⟨"w8", ["s1"], audioFeaturesToVector exBaseline, [], [], none, []⟩

/-- Claim C8: `audioFeaturesToVector` puts valence at index 6, energy at
index 1 and acousticness at index 3, but `computeAverageFeatures` reads
indices 7 (tempo/200), 2 (speechiness) and 0 (danceability) for them, so
the harvester's centroid-targeted call (the second request) passes target
values that are not the centroid's valence/energy/acousticness
components. -/
theorem C8_bug_thm :
    exWorld8.tasteCentroid.get? 6 = some ((7:ℚ)/10) ∧
    exWorld8.tasteCentroid.get? 1 = some ((1:ℚ)/5) ∧
    exWorld8.tasteCentroid.get? 3 = some ((2:ℚ)/5) ∧
    (computeAverageFeatures exWorld8).valence = some ((1:ℚ)/2) ∧
    (computeAverageFeatures exWorld8).energy = some ((3:ℚ)/10) ∧
    (computeAverageFeatures exWorld8).acousticness = some ((1:ℚ)/10) ∧
    (computeAverageFeatures exWorld8).valence ≠ exWorld8.tasteCentroid.get? 6 ∧
    (computeAverageFeatures exWorld8).energy ≠ exWorld8.tasteCentroid.get? 1 ∧
    (computeAverageFeatures exWorld8).acousticness ≠ exWorld8.tasteCentroid.get? 3 ∧
    ((harvestCandidates exWorld8 emptyRec).1.get? 1).map
        (fun p => (p.target_valence, p.target_energy, p.target_acousticness))
      = some (some ((1:ℚ)/2), some ((3:ℚ)/10), some ((1:ℚ)/10)) := by
  refine ⟨?_, ?_, ?_, ?_, ?_, ?_, ?_, ?_, ?_, ?_⟩ <;>
    norm_num [exWorld8, exBaseline, audioFeaturesToVector, computeAverageFeatures,
      harvestCandidates, jsOrQ, jsSlice, emptyRec, addUnique]

/-- The novelty bonus as the specification states it: 0.15 when none of
the candidate's artists appear in `world.topArtists`, else 0. -/
def specNoveltyBonus (world : WorldDefinition) (t : CandidateTrack) : ℚ :=
  if ∀ a ∈ t.artists, a.id ∉ world.topArtists then 15 / 100 else 0

/-- The average batch-frequency of the candidate's genres as the
specification states it, a candidate with zero genres being treated as
having frequency 1000. -/
def specAvgGenreFrequency (batch : List CandidateTrack)
    (t : CandidateTrack) : ℚ :=
  if t.genres.length = 0 then 1000
  else ((t.genres.map (fun g => (batchGenreCount batch g : ℚ))).sum) /
    (t.genres.length : ℚ)

/-- The diversity bonus as the specification states it: 0.10 below average
frequency 10, 0.05 below 30, else 0. -/
def specDiversityBonus (batch : List CandidateTrack)
    (t : CandidateTrack) : ℚ :=
  if specAvgGenreFrequency batch t < 10 then 1 / 10
  else if specAvgGenreFrequency batch t < 30 then 5 / 100
  else 0

/-- Claim C2: for every candidate in the scored batch, `applyBonuses`
produces exactly the specification's bonuses and the final score
0.4·semanticScore + 0.3·spotifyScore + 0.2·noveltyBonus +
0.1·diversityBonus. -/
theorem C2_score_formula (tracks : List CandidateTrack)
    (world : WorldDefinition) :
    applyBonuses tracks world = tracks.map (fun t =>
      { t with
          noveltyBonus := specNoveltyBonus world t
          diversityBonus := specDiversityBonus tracks t
          score := (4 / 10) * t.semanticScore + (3 / 10) * t.spotifyScore
            + (2 / 10) * specNoveltyBonus world t
            + (1 / 10) * specDiversityBonus tracks t }) := by
  unfold applyBonuses
  refine List.map_congr_left (fun t _ => ?_)
  have hcond : ((!(t.artists.any fun a => world.topArtists.contains a.id)) = true)
      ↔ (∀ a ∈ t.artists, a.id ∉ world.topArtists) := by simp
  have hnov : (if (!(t.artists.any fun a => world.topArtists.contains a.id)) = true
      then (15 : ℚ) / 100 else 0) = specNoveltyBonus world t := by
    simp only [specNoveltyBonus]
    exact if_congr hcond rfl rfl
  have havg : (if 0 < t.genres.length then
        ((t.genres.map (fun g => (batchGenreCount tracks g : ℚ))).sum) /
          (t.genres.length : ℚ)
      else (1000 : ℚ)) = specAvgGenreFrequency tracks t := by
    rcases Nat.eq_zero_or_pos t.genres.length with h | h
    · simp [specAvgGenreFrequency, h]
    · simp [specAvgGenreFrequency, h, Nat.pos_iff_ne_zero.mp h]
  simp only []
  rw [hnov, havg]
  rfl

/-- Enriching an empty candidate list yields an empty list. -/
theorem enrichWithAudioFeatures_nil
    (o : List String → List (Option AudioFeatures)) :
    enrichWithAudioFeatures [] o = [] := rfl

/-- The coarse filter accepts an empty list in either branch. -/
theorem applyCoarseFilters_nil (world : WorldDefinition) :
    applyCoarseFilters [] world = .ok [] := by
  unfold applyCoarseFilters
  cases world.featureRanges <;> rfl

/-- Genre enrichment of an empty list yields an empty list. -/
theorem enrichWithGenres_nil (o : List String → List SpotifyArtist) :
    enrichWithGenres [] o = [] := rfl

/-- Scoring an empty list succeeds with an empty list. -/
theorem scoreWithEmbeddings_nil (sqrt : ℚ → ℚ) (world : WorldDefinition)
    (embed : List String → List (List ℚ)) :
    scoreWithEmbeddings sqrt [] world embed = .ok [] := rfl

/-- Bonuses over an empty batch yield an empty batch. -/
theorem applyBonuses_nil (world : WorldDefinition) :
    applyBonuses [] world = [] := rfl

/-- Sorting an empty candidate list yields an empty list. -/
theorem sortByScoreDesc_nil : sortByScoreDesc [] = [] := by
  simp [sortByScoreDesc]

/-- Bucketing an empty candidate list yields one empty playlist per
intersection. -/
theorem bucketIntoIntersections_nil (world : WorldDefinition) :
    bucketIntoIntersections [] world
      = world.intersections.map (fun i => ⟨i.name, i.description, []⟩) := by
  unfold bucketIntoIntersections
  refine List.map_congr_left (fun inter _ => ?_)
  simp [sortByBiasedScoreDesc, enforceDiversity, enforceDiversityGo]

/-- `Except.ok` on the left of a monadic bind reduces. -/
theorem exceptBindOk {ε α β : Type} (a : α) (f : α → Except ε β) :
    ((Except.ok a : Except ε α) >>= f) = f a := rfl

/-- `pure` on `Except` is `Except.ok`. -/
theorem exceptPureOk {ε α : Type} (a : α) :
    (pure a : Except ε α) = Except.ok a := rfl

/-- Claim C9: when the harvested pool is empty after blocklist filtering,
the generation pipeline still runs to completion: the job ends `complete`
and the bucketer emits exactly one playlist per world intersection, each
with zero tracks. -/
theorem C9_empty_pool (world : WorldDefinition) (rec : RecParams → List Track)
    (featOracle : List String → List (Option AudioFeatures))
    (artistOracle : List String → List SpotifyArtist)
    (embed : List String → List (List ℚ)) (sqrt : ℚ → ℚ)
    (cs : List Track)
    (hharvest : (harvestCandidates world rec).2 = .ok cs)
    (hempty : filterBlocklist cs world = []) :
    generatePlaylistsAsync world rec featOracle artistOracle embed sqrt
      = .complete world.intersections.length
          (world.intersections.map (fun i => ⟨i.name, i.description, []⟩)) := by
  unfold generatePlaylistsAsync
  rw [hharvest]
  simp only [exceptBindOk, hempty, enrichWithAudioFeatures_nil,
    applyCoarseFilters_nil, enrichWithGenres_nil, scoreWithEmbeddings_nil,
    applyBonuses_nil, sortByScoreDesc_nil, bucketIntoIntersections_nil,
    exceptPureOk]
  simp [List.length_map]

/-- A world with one intersection and no seeds, for the C9 witness. -/
def exWorld9 : WorldDefinition := ⟨"w9", [], [], [], [], none, [⟨"i", "d", {}⟩]⟩

/-- Witness for `C9_empty_pool` at a concrete world and oracles. -/
theorem C9_empty_pool_witness :
    (harvestCandidates exWorld9 emptyRec).2 = .ok [] ∧
    filterBlocklist [] exWorld9 = [] ∧
    generatePlaylistsAsync exWorld9 emptyRec (fun _ => []) (fun _ => [])
        (fun _ => []) id
      = .complete exWorld9.intersections.length
          (exWorld9.intersections.map (fun i => ⟨i.name, i.description, []⟩)) :=
  ⟨rfl, rfl,
    C9_empty_pool exWorld9 emptyRec (fun _ => []) (fun _ => [])
      (fun _ => []) id [] rfl rfl⟩

/-- The primary genre as the claim words it: the first resolved genre, or
"unknown" when the genre list is empty. -/
def claimPrimaryGenre (genres : List String) : String := genres.headD "unknown"

/-- Two selected tracks share no artist. -/
def noSharedArtist (s t : BiasedTrack) : Prop :=
  ∀ a ∈ s.cand.artists, ∀ b ∈ t.cand.artists, a.id ≠ b.id

/-- The diversity loop never selects more tracks than remain under the
50-track budget. -/
theorem enforceDiversityGo_length (l : List BiasedTrack) :
    ∀ uA uAl gc cnt, cnt < 50 →
      (enforceDiversityGo l uA uAl gc cnt).length + cnt ≤ 50 := by
  induction l with
  | nil => intro uA uAl gc cnt h; simp [enforceDiversityGo]; omega
  | cons t rest ih =>
    intro uA uAl gc cnt h
    simp only [enforceDiversityGo]
    split_ifs with h1 h2 h3 h4
    · exact ih uA uAl gc cnt h
    · exact ih uA uAl gc cnt h
    · exact ih uA uAl gc cnt h
    · simp; omega
    · have := ih ((t.cand.artists.map fun a => a.id) ++ uA)
        (t.cand.album.id :: uAl)
        (bumpCount gc (jsPrimaryGenre t.cand.genres)) (cnt + 1) (by omega)
      simp only [List.length_cons]
      omega

/-- The diversity loop's output avoids the running used-artist set and is
pairwise artist-disjoint. -/
theorem enforceDiversityGo_artists (l : List BiasedTrack) :
    ∀ uA uAl gc cnt,
      (∀ t ∈ enforceDiversityGo l uA uAl gc cnt,
        ∀ a ∈ t.cand.artists, a.id ∉ uA) ∧
      List.Pairwise noSharedArtist (enforceDiversityGo l uA uAl gc cnt) := by
  induction l with
  | nil => intro uA uAl gc cnt; simp [enforceDiversityGo]
  | cons t rest ih =>
    intro uA uAl gc cnt
    simp only [enforceDiversityGo]
    split_ifs with h1 h2 h3 h4
    · exact ih uA uAl gc cnt
    · exact ih uA uAl gc cnt
    · exact ih uA uAl gc cnt
    · -- break branch: the singleton [t]
      have hav : ∀ a ∈ t.cand.artists, a.id ∉ uA := by
        intro a ha hmem
        refine h1 (List.any_eq_true.mpr ⟨a.id, List.mem_map.mpr ⟨a, ha, rfl⟩, ?_⟩)
        simpa using hmem
      refine ⟨?_, by simp [List.pairwise_singleton]⟩
      intro s hs
      rcases List.mem_singleton.mp hs with rfl
      exact hav
    · -- select branch: t :: recursive call on the enlarged artist set
      have hav : ∀ a ∈ t.cand.artists, a.id ∉ uA := by
        intro a ha hmem
        refine h1 (List.any_eq_true.mpr ⟨a.id, List.mem_map.mpr ⟨a, ha, rfl⟩, ?_⟩)
        simpa using hmem
      obtain ⟨ihAvoid, ihPw⟩ := ih ((t.cand.artists.map fun a => a.id) ++ uA)
        (t.cand.album.id :: uAl)
        (bumpCount gc (jsPrimaryGenre t.cand.genres)) (cnt + 1)
      constructor
      · intro s hs a ha
        rcases List.mem_cons.mp hs with rfl | hs
        · exact hav a ha
        · intro hmem
          exact ihAvoid s hs a ha (List.mem_append_right _ hmem)
      · refine List.pairwise_cons.mpr ⟨?_, ihPw⟩
        intro s hs a ha b hb hab
        have : b.id ∉ (t.cand.artists.map fun x => x.id) ++ uA :=
          ihAvoid s hs b hb
        exact this (List.mem_append_left _ (by
          rw [← hab]; exact List.mem_map.mpr ⟨a, ha, rfl⟩))

/-- The diversity loop's output avoids the running used-album set and has
pairwise distinct album ids. -/
theorem enforceDiversityGo_albums (l : List BiasedTrack) :
    ∀ uA uAl gc cnt,
      (∀ t ∈ enforceDiversityGo l uA uAl gc cnt, t.cand.album.id ∉ uAl) ∧
      List.Pairwise (fun s t => s.cand.album.id ≠ t.cand.album.id)
        (enforceDiversityGo l uA uAl gc cnt) := by
  induction l with
  | nil => intro uA uAl gc cnt; simp [enforceDiversityGo]
  | cons t rest ih =>
    intro uA uAl gc cnt
    simp only [enforceDiversityGo]
    split_ifs with h1 h2 h3 h4
    · exact ih uA uAl gc cnt
    · exact ih uA uAl gc cnt
    · exact ih uA uAl gc cnt
    · have hav : t.cand.album.id ∉ uAl := by
        intro hmem
        exact h2 (by simpa using hmem)
      refine ⟨?_, by simp [List.pairwise_singleton]⟩
      intro s hs
      rcases List.mem_singleton.mp hs with rfl
      exact hav
    · have hav : t.cand.album.id ∉ uAl := by
        intro hmem
        exact h2 (by simpa using hmem)
      obtain ⟨ihAvoid, ihPw⟩ := ih ((t.cand.artists.map fun a => a.id) ++ uA)
        (t.cand.album.id :: uAl)
        (bumpCount gc (jsPrimaryGenre t.cand.genres)) (cnt + 1)
      constructor
      · intro s hs
        rcases List.mem_cons.mp hs with rfl | hs
        · exact hav
        · intro hmem
          exact ihAvoid s hs (List.mem_cons_of_mem _ hmem)
      · refine List.pairwise_cons.mpr ⟨?_, ihPw⟩
        intro s hs heq
        exact ihAvoid s hs (heq ▸ List.mem_cons_self _ _)

/-- Counter update rule for `bumpCount`. -/
theorem lookupCount_bumpCount (gc : List (String × ℕ)) (g0 g : String) :
    lookupCount (bumpCount gc g0) g
      = if g0 = g then lookupCount gc g0 + 1 else lookupCount gc g := by
  simp only [bumpCount, lookupCount, List.lookup]
  by_cases h : g0 = g
  · simp [h]
  · have hb : (g == g0) = false := beq_false_of_ne (fun e => h e.symm)
    simp [h, hb]

/-- The diversity loop keeps every primary-genre count, added to its
running counter, at 8 or below. -/
theorem enforceDiversityGo_genres (l : List BiasedTrack) :
    ∀ uA uAl gc cnt, (∀ g0, lookupCount gc g0 ≤ 8) →
      ∀ g, (enforceDiversityGo l uA uAl gc cnt).countP
          (fun t => jsPrimaryGenre t.cand.genres = g) + lookupCount gc g ≤ 8 := by
  induction l with
  | nil => intro uA uAl gc cnt hgc g; simp [enforceDiversityGo]; exact hgc g
  | cons t rest ih =>
    intro uA uAl gc cnt hgc g
    simp only [enforceDiversityGo]
    split_ifs with h1 h2 h3 h4
    · exact ih uA uAl gc cnt hgc g
    · exact ih uA uAl gc cnt hgc g
    · exact ih uA uAl gc cnt hgc g
    · -- break branch
      have hlt : lookupCount gc (jsPrimaryGenre t.cand.genres) < 8 := by omega
      by_cases hg : jsPrimaryGenre t.cand.genres = g
      · subst hg
        simp [List.countP_cons]
        omega
      · simp [List.countP_cons, hg]
        exact hgc g
    · -- select branch
      have hlt : lookupCount gc (jsPrimaryGenre t.cand.genres) < 8 := by omega
      have hgc2 : ∀ g0, lookupCount
          (bumpCount gc (jsPrimaryGenre t.cand.genres)) g0 ≤ 8 := by
        intro g0
        rw [lookupCount_bumpCount]
        split_ifs with h
        · omega
        · exact hgc g0
      by_cases hg : jsPrimaryGenre t.cand.genres = g
      · subst hg
        have := ih ((t.cand.artists.map fun a => a.id) ++ uA)
          (t.cand.album.id :: uAl)
          (bumpCount gc (jsPrimaryGenre t.cand.genres)) (cnt + 1) hgc2
          (jsPrimaryGenre t.cand.genres)
        rw [lookupCount_bumpCount, if_pos rfl] at this
        rw [List.countP_cons]
        simp
        omega
      · have := ih ((t.cand.artists.map fun a => a.id) ++ uA)
          (t.cand.album.id :: uAl)
          (bumpCount gc (jsPrimaryGenre t.cand.genres)) (cnt + 1) hgc2 g
        rw [lookupCount_bumpCount, if_neg hg] at this
        rw [List.countP_cons]
        simp [hg]
        omega

/-- Counting the claim's primary genre is bounded by counting the code's
primary genre at a translated key (the empty string is falsy in JS, so the
code maps it to "unknown"). -/
theorem countP_claimPrimary_le (l : List BiasedTrack) (g : String) :
    l.countP (fun t => claimPrimaryGenre t.cand.genres = g)
      ≤ l.countP (fun t =>
          jsPrimaryGenre t.cand.genres = (if g = "" then "unknown" else g)) := by
  apply List.countP_mono_left
  intro t _ h
  simp only [decide_eq_true_eq] at h ⊢
  rcases hgen : t.cand.genres with _ | ⟨g0, gs⟩
  · rw [hgen] at h
    simp [claimPrimaryGenre] at h
    subst h
    simp [jsPrimaryGenre]
  · rw [hgen] at h
    simp [claimPrimaryGenre] at h
    subst h
    by_cases h0 : g0 = ""
    · simp [jsPrimaryGenre, h0]
    · simp [jsPrimaryGenre, h0]

/-- Claim C1: every playlist emitted by the bucketer has at most 50
tracks, no two tracks sharing any artist, no two tracks sharing an album,
and at most 8 tracks with the same primary genre (first resolved genre, or
"unknown" for an empty genre list). -/
theorem C1_diversity_invariants (tracks : List CandidateTrack)
    (world : WorldDefinition) (p : Playlist)
    (hp : p ∈ bucketIntoIntersections tracks world) :
    p.tracks.length ≤ 50 ∧
    List.Pairwise noSharedArtist p.tracks ∧
    List.Pairwise (fun s t => s.cand.album.id ≠ t.cand.album.id) p.tracks ∧
    ∀ g : String,
      p.tracks.countP (fun t => claimPrimaryGenre t.cand.genres = g) ≤ 8 := by
  rcases List.mem_map.mp hp with ⟨inter, _, rfl⟩
  set s := (sortByBiasedScoreDesc (tracks.map (applyIntersectionBias inter))).take 80
    with hs
  have hsub : ((enforceDiversity s).take 50).Sublist (enforceDiversity s) :=
    List.take_sublist _ _
  refine ⟨?_, ?_, ?_, ?_⟩
  · exact List.length_take_le _ _
  · exact ((enforceDiversityGo_artists s [] [] [] 0).2).sublist hsub
  · exact ((enforceDiversityGo_albums s [] [] [] 0).2).sublist hsub
  · intro g
    have h1 := countP_claimPrimary_le ((enforceDiversity s).take 50) g
    have h2 := hsub.countP_le (fun t =>
      jsPrimaryGenre t.cand.genres = (if g = "" then "unknown" else g))
    have h3 := enforceDiversityGo_genres s [] [] [] 0 (fun g0 => by
      simp [lookupCount]) (if g = "" then "unknown" else g)
    simp [lookupCount] at h3
    exact le_trans h1 (le_trans h2 h3)

/-- Witness for `C1_diversity_invariants` at a concrete world. -/
theorem C1_diversity_invariants_witness :
    (Playlist.mk "i" "d" []).tracks.length ≤ 50 ∧
    List.Pairwise noSharedArtist (Playlist.mk "i" "d" []).tracks ∧
    List.Pairwise (fun s t => s.cand.album.id ≠ t.cand.album.id)
      (Playlist.mk "i" "d" []).tracks ∧
    ∀ g : String, (Playlist.mk "i" "d" []).tracks.countP
        (fun t => claimPrimaryGenre t.cand.genres = g) ≤ 8 :=
  C1_diversity_invariants [] exWorld9 (Playlist.mk "i" "d" []) (by
    rw [bucketIntoIntersections_nil]
    simp [exWorld9])

/-- `ml-matrix`'s eigendecomposition is numeric arithmetic on the matrix
entries, so a matrix of non-finite entries yields non-finite eigenvalues
and eigenvectors of the matrix's dimension.  This predicate captures that
NaN-propagation property of the external library. -/
def EvdPropagatesNaN (evd : List (List JsNum) → EvdResult) : Prop :=
  ∀ m, (∀ r ∈ m, ∀ x ∈ r, x = none) →
    ((evd m).realEigenvalues.length = m.length ∧
     (∀ x ∈ (evd m).realEigenvalues, x = none)) ∧
    ((evd m).eigenvectorMatrix.length = m.length ∧
     (∀ r ∈ (evd m).eigenvectorMatrix, ∀ x ∈ r, x = none))

/-- Division with a non-finite numerator is non-finite. -/
theorem jdiv_none_left (b : JsNum) : jdiv none b = none := by
  cases b <;> rfl

/-- Indexing into an all-non-finite list yields a non-finite value (the
out-of-range default is `undefined`, also non-finite). -/
theorem getD_none_of_all_none (l : List JsNum)
    (h : ∀ x ∈ l, x = none) : ∀ i : ℕ, l.getD i none = none := by
  induction l with
  | nil => intro i; simp
  | cons a as ih =>
    intro i
    cases i with
    | zero => simpa using h a (List.mem_cons_self a as)
    | succ n =>
      simp only [List.getD_cons_succ]
      exact ih (fun x hx => h x (List.mem_cons_of_mem a hx)) n

/-- The eigenvalue-index sort returns a permutation of all indices. -/
theorem sortEigenIndices_perm (evs : List JsNum) :
    (sortEigenIndices evs).Perm (List.range evs.length) := by
  unfold sortEigenIndices
  have h1 := (List.mergeSort_perm evs.enum (fun a b =>
    match a.2, b.2 with
    | some x, some y => decide (y ≤ x)
    | _, _ => true)).map Prod.fst
  rwa [List.enum_map_fst] at h1

/-- Every entry of the covariance matrix of a one-row input is non-finite:
the divisor `matrix.rows − 1` is zero. -/
theorem covMatrix_one_row_none (z : List (List ℚ)) (hz : z.length = 1) :
    ∀ r ∈ covMatrix z, ∀ x ∈ r, x = none := by
  intro r hr x hx
  simp only [covMatrix] at hr
  rcases List.mem_map.mp hr with ⟨i, _, rfl⟩
  rcases List.mem_map.mp hx with ⟨j, _, rfl⟩
  rw [hz]
  norm_num [jdiv]

/-- Claim C10: applied to a matrix with exactly one row, `pca` divides the
covariance matrix by `rows − 1 = 0`, so every covariance entry is
non-finite (`0/0 = NaN`), and — the eigendecomposition propagating
non-finiteness — the returned components and explained variances are
non-empty and contain only non-finite values. -/
theorem C10_pca_single_row (sqrt : ℚ → ℚ)
    (evd : List (List JsNum) → EvdResult) (row : List ℚ)
    (hrow : row ≠ []) (hevd : EvdPropagatesNaN evd) :
    (covMatrix (standardizeData sqrt [row]) ≠ [] ∧
      ∀ r ∈ covMatrix (standardizeData sqrt [row]), ∀ x ∈ r, x = none) ∧
    ((pca sqrt evd [row] 8).explainedVariance ≠ [] ∧
      ∀ x ∈ (pca sqrt evd [row] 8).explainedVariance, x = none) ∧
    ((pca sqrt evd [row] 8).components ≠ [] ∧
      ∀ c ∈ (pca sqrt evd [row] 8).components, ∀ x ∈ c, x = none) := by
  have hrowpos : 0 < row.length := List.length_pos.mpr hrow
  have hzlen : (standardizeData sqrt [row]).length = 1 := by
    simp [standardizeData]
  have hzhead : ((standardizeData sqrt [row]).headD []).length = row.length := by
    simp [standardizeData]
  have hcov := covMatrix_one_row_none (standardizeData sqrt [row]) hzlen
  have hcovlen : (covMatrix (standardizeData sqrt [row])).length
      = ((standardizeData sqrt [row]).headD []).length := by
    simp [covMatrix]
  have hcovne : covMatrix (standardizeData sqrt [row]) ≠ [] := by
    apply List.ne_nil_of_length_pos
    rw [hcovlen, hzhead]
    exact hrowpos
  obtain ⟨⟨hevlen, hevvals⟩, hmlen, hmvals⟩ :=
    hevd (covMatrix (standardizeData sqrt [row])) hcov
  have heigpos : 0 < (evd (covMatrix (standardizeData sqrt [row]))).realEigenvalues.length := by
    rw [hevlen, hcovlen, hzhead]
    exact hrowpos
  have hindlen : (sortEigenIndices
      (evd (covMatrix (standardizeData sqrt [row]))).realEigenvalues).length
      = (evd (covMatrix (standardizeData sqrt [row]))).realEigenvalues.length :=
    ((sortEigenIndices_perm _).length_eq).trans (List.length_range _)
  refine ⟨⟨hcovne, hcov⟩, ⟨?_, ?_⟩, ?_, ?_⟩
  · -- explainedVariance is non-empty
    simp only [pca]
    apply List.ne_nil_of_length_pos
    rw [List.length_map, List.length_take, hindlen]
    omega
  · -- every explained variance is non-finite
    simp only [pca]
    intro x hx
    rcases List.mem_map.mp hx with ⟨idx, _, rfl⟩
    rw [getD_none_of_all_none _ hevvals idx]
    exact jdiv_none_left _
  · -- components is non-empty
    simp only [pca]
    apply List.ne_nil_of_length_pos
    rw [List.length_map, List.length_range]
    rw [hindlen]
    omega
  · -- every component entry is non-finite
    simp only [pca]
    intro c hc x hx
    rcases List.mem_map.mp hc with ⟨i, _, rfl⟩
    simp only [getColumn] at hx
    rcases List.mem_map.mp hx with ⟨r, hr, rfl⟩
    exact getD_none_of_all_none r (hmvals r hr) _

/-- A concrete NaN-propagating eigendecomposition for the C10 witness. -/
def exEvd : List (List JsNum) → EvdResult :=
  fun m => ⟨m.map (fun _ => none), m.map (fun _ => m.map (fun _ => none))⟩

/-- `exEvd` propagates non-finiteness. -/
theorem exEvd_propagates : EvdPropagatesNaN exEvd := by
  intro m _
  refine ⟨⟨by simp [exEvd], ?_⟩, by simp [exEvd], ?_⟩
  · intro x hx
    rcases List.mem_map.mp hx with ⟨_, _, rfl⟩
    rfl
  · intro r hr x hx
    rcases List.mem_map.mp hr with ⟨_, _, rfl⟩
    rcases List.mem_map.mp hx with ⟨_, _, rfl⟩
    rfl

/-- Witness for `C10_pca_single_row` at the one-row matrix `[[1]]`. -/
theorem C10_pca_single_row_witness :
    (covMatrix (standardizeData id [[1]]) ≠ [] ∧
      ∀ r ∈ covMatrix (standardizeData id [[1]]), ∀ x ∈ r, x = none) ∧
    ((pca id exEvd [[1]] 8).explainedVariance ≠ [] ∧
      ∀ x ∈ (pca id exEvd [[1]] 8).explainedVariance, x = none) ∧
    ((pca id exEvd [[1]] 8).components ≠ [] ∧
      ∀ c ∈ (pca id exEvd [[1]] 8).components, ∀ x ∈ c, x = none) :=
  C10_pca_single_row id exEvd [1] (by simp) exEvd_propagates

end TRC
